import Mathlib

/-!
Verification of the `notebook` renderer (src/main.rs): a shallow embedding of
the Markdown-event data model, the Pikchr diagram transformer, the heading
extractor, and the render/output plumbing, with theorems settling the spec's
claims about them.

External collaborators (the pulldown-cmark parser, the pikchr engine, the
handlebars template engine, the HTML serializer, the filesystem) are modelled
as parameters: the theorems quantify over their behavior.
-/

set_option autoImplicit false

namespace Notebook

/-- `pulldown_cmark::CodeBlockKind`: a code block is fenced (with a language
label) or indented. -/
inductive CodeBlockKind where
  | fenced (lang : String)
  | indented
  deriving DecidableEq, Repr

/-- `pulldown_cmark::Tag` restricted to what the program inspects:
`Heading(u32)`, `CodeBlock(kind)`, and all other tags collapsed into a
constructor carrying their name (Paragraph, Emphasis, ...). -/
inductive Tag where
  | heading (level : Nat)
  | codeBlock (kind : CodeBlockKind)
  | other (name : String)
  deriving DecidableEq, Repr

/-- `pulldown_cmark::Event` restricted to what the program inspects:
`Start(tag)`, `End(tag)`, `Text(s)`, `Html(s)`, and all remaining
pass-through variants collapsed into a constructor carrying their name
(SoftBreak, Code, ...). -/
inductive Event where
  | start (t : Tag)
  | end_ (t : Tag)
  | text (s : String)
  | html (s : String)
  | other (name : String)
  deriving DecidableEq, Repr

/-- The diagram engine interface: `Pikchr::render` returns `Ok(svg)` or
`Err(message)`. Quantified over in the theorems ("diagram-engine behavior"). -/
def Engine : Type := String → Except String String

/-- The single replacement event the transformer emits for a matched `pikchr`
block: `Event::Html(svg)` on engine success, `Event::Text(err)` on engine
failure (src/main.rs lines 220-223). -/
def pikchrReplacement (engine : Engine) (body : String) : Event :=
  match engine body with
  | .ok svg => Event.html svg
  | .error err => Event.text err

/-- The cascade of matches at src/main.rs lines 185-202: the event is a
`Start`, whose tag is a `CodeBlock`, whose kind is `Fenced(lang)`, and
`lang.as_ref() == "pikchr"` byte-for-byte (no trimming or case folding).
Every event failing one of these tests is returned unchanged by `next`. -/
def isPikchrStart : Event → Bool
  | .start (.codeBlock (.fenced lang)) => lang = "pikchr"
  | _ => false

/-- One call of `PikchrTransformer::next` (src/main.rs lines 179-226) on the
remaining input list. `none` models a panic (a failed `expect` or the
`unreachable!` arm); `some (none, rest)` models `next` returning `None`
(end of stream); `some (some e, rest)` models emitting `e` with `rest` left
in the underlying iterator. On a pikchr start the source pulls two more
events unconditionally (panicking via `expect` when the stream is too
short), then requires the first of them to be `Text` (panicking via
`unreachable!` otherwise); the third pulled event is discarded without
inspection. -/
def pikchrNext (engine : Engine) : List Event → Option (Option Event × List Event)
  | [] => some (none, [])
  | e :: rest =>
    if isPikchrStart e then
      match rest with
      | .text body :: _ :: rest' => some (some (pikchrReplacement engine body), rest')
      | _ => none
    else some (some e, rest)

/-- Exhausting the `PikchrTransformer` iterator (the `collect` at
src/main.rs line 129): repeatedly apply `pikchrNext`; `none` models a panic
somewhere during the collection. -/
def pikchrTransform (engine : Engine) : List Event → Option (List Event)
  | [] => some []
  | e :: rest =>
    if isPikchrStart e then
      match rest with
      | .text body :: _ :: rest' =>
        (pikchrTransform engine rest').map (pikchrReplacement engine body :: ·)
      | _ => none
    else (pikchrTransform engine rest).map (e :: ·)

/-- The loop of `extract_heading` (src/main.rs lines 148-163), with the
mutable `in_h1` made an explicit argument. The match arms mirror the source:
when `in_h1` is false a `Start` event updates the flag (to `level == 1` for a
heading, left unchanged — still false — for any other tag); when `in_h1` is
true the next `Text` returns; every other combination continues unchanged. -/
def extractHeadingLoop : Bool → List Event → Option String
  | _, [] => none
  | false, .start t :: rest =>
    match t with
    | .heading level => extractHeadingLoop (decide (level = 1)) rest
    | _ => extractHeadingLoop false rest
  | true, .text s :: _ => some s
  | inH1, _ :: rest => extractHeadingLoop inH1 rest

/-- `extract_heading` (src/main.rs lines 148-163): scan with `in_h1`
initially false. -/
def extract_heading (events : List Event) : Option String :=
  extractHeadingLoop false events

/-! ### Predicates on events used in the analysis -/

/-- Whether an event is a `Text` event. -/
def isTextEvent : Event → Bool
  | .text _ => true
  | _ => false

/-- Whether an event is an `End` event. -/
def isEndEvent : Event → Bool
  | .end_ _ => true
  | _ => false

/-- Whether a tag is a `Heading` tag. -/
def isHeadingTag : Tag → Bool
  | .heading _ => true
  | _ => false

/-- Position `i` of `E` is followed by a `Text` event and then an `End`
event. -/
def expectsTextEnd (E : List Event) (i : Nat) : Bool :=
  (match E[i + 1]? with
   | some e => isTextEvent e
   | none => false)
  && (match E[i + 2]? with
      | some e => isEndEvent e
      | none => false)

/-- Parser-contract well-formedness, as the spec states it: every
`Start(CodeBlock(Fenced("pikchr")))` in the stream is followed by exactly
one `Text` event and then an `End` event. -/
def pikchrWF (E : List Event) : Prop :=
  ∀ i, (h : i < E.length) → isPikchrStart (E.get ⟨i, h⟩) = true →
    expectsTextEnd E i = true

instance (E : List Event) : Decidable (pikchrWF E) :=
  Nat.decidableBallLT E.length _

/-! ### Characterizations of the heading extractor -/

/-- The text of the first `Text` event of a stream, if any. -/
def firstText : List Event → Option String
  | [] => none
  | .text s :: _ => some s
  | _ :: rest => firstText rest

/-- Closed-form characterization of `extract_heading` (proved below): the
first `Text` event anywhere after the first `Start(Heading(1))`. -/
def titleSpec : List Event → Option String
  | [] => none
  | .start (.heading level) :: rest =>
    if level = 1 then firstText rest else titleSpec rest
  | _ :: rest => titleSpec rest

/-- The stream contains a `Start(Heading(1))` with at least one `Text` event
somewhere after the first such start. -/
def hasH1ThenText : List Event → Bool
  | [] => false
  | .start (.heading level) :: rest =>
    if level = 1 then rest.any isTextEvent else hasH1ThenText rest
  | _ :: rest => hasH1ThenText rest

/-- Stated from the spec's words, for comparison: the stream contains a
`Heading(1)` whose first inner event (the event immediately after the
`Start`) is `Text`. -/
def h1WithTextFirstChild : List Event → Bool
  | .start (.heading 1) :: .text _ :: _ => true
  | _ :: rest => h1WithTextFirstChild rest
  | [] => false

/-- Stated from the spec's words (§4.2), for comparison with
`extractHeadingLoop`: on `Start(Heading(level))` set
`inside_h1 := (level == 1)`; on `Start` of any other tag set
`inside_h1 := false`; while `inside_h1` is true the next `Text(s)` returns
`s`; end of stream yields nothing. -/
def specHeadingScan : Bool → List Event → Option String
  | _, [] => none
  | insideH1, e :: rest =>
    match e with
    | .start (.heading level) => specHeadingScan (decide (level = 1)) rest
    | .start _ => specHeadingScan false rest
    | .text s => if insideH1 then some s else specHeadingScan insideH1 rest
    | _ => specHeadingScan insideH1 rest

/-- The spec's §4.2 algorithm run from the initial state. -/
def spec_extract_heading (events : List Event) : Option String :=
  specHeadingScan false events

/-! ### Decomposition of a transformer run into chunks

A successful transformer run cuts its input into chunks: single
passed-through events and matched pikchr triples. The decomposition is the
shape in which the spec states the transformer's stream invariants. -/

/-- One chunk of the transformer's input: either a single non-matching
event, or a matched triple (pikchr start, `Text(body)`, and the third
event, which the source discards without inspecting). -/
inductive Chunk where
  | plain (e : Event)
  | triple (body : String) (close : Event)
  deriving DecidableEq, Repr

/-- The input events a chunk stands for. -/
def Chunk.input : Chunk → List Event
  | .plain e => [e]
  | .triple body close =>
    [Event.start (Tag.codeBlock (CodeBlockKind.fenced "pikchr")),
     Event.text body, close]

/-- The output events a chunk produces: a plain event is emitted unchanged,
a triple becomes the single replacement event. -/
def Chunk.output (engine : Engine) : Chunk → List Event
  | .plain e => [e]
  | .triple body _ => [pikchrReplacement engine body]

/-- Whether a chunk is a matched triple. -/
def Chunk.isTriple : Chunk → Bool
  | .triple _ _ => true
  | .plain _ => false

/-- The input stream a chunk list stands for. -/
def chunksInput (cs : List Chunk) : List Event :=
  (cs.map Chunk.input).flatten

/-- The output stream a chunk list produces. -/
def chunksOutput (engine : Engine) (cs : List Chunk) : List Event :=
  (cs.map (Chunk.output engine)).flatten

/-- A valid decomposition: every plain chunk is a non-matching event (so
every matching start is inside a triple chunk). -/
def chunksValid (cs : List Chunk) : Bool :=
  cs.all fun c =>
    match c with
    | .plain e => !isPikchrStart e
    | .triple _ _ => true

/-- The number of matched triples in a decomposition. Each triple chunk
contributes exactly one replacement event to the output, so this also
counts the `Html`/`Text` replacement events of the transformed stream. -/
def countTriples : List Chunk → Nat
  | [] => 0
  | .triple _ _ :: cs => countTriples cs + 1
  | .plain _ :: cs => countTriples cs

/-! ### The pipeline, file output and the server handlers

The externals are parameters: `readFile` models `fs::read_to_string`,
`parse` the pulldown-cmark parser (`Parser::new_ext` with the fixed option
set of src/main.rs lines 120-125), `pushHtml` the HTML serializer
(`html::push_html`), `renderTemplate` the handlebars engine applied to the
template and the `{title, content}` context, `engine` the pikchr engine. -/

/-- `Params` (src/main.rs lines 11-16). -/
structure Params where
  input : String
  output : Option String
  template : String

/-- `render_html` (src/main.rs lines 116-145), with the write sink made
explicit as the list of chunks written so far. Returns `none` when the
transformer panics; otherwise `some (res, sink')` where `res` is the
function's `Result` and `sink'` the sink after the call. The single
`output.write` happens after `render_template` has produced the entire
document; on a template error the sink is returned untouched. The sink
itself is modelled as infallible. -/
def render_html (parse : String → List Event) (engine : Engine)
    (pushHtml : List Event → String)
    (renderTemplate : String → String → String → Except String String)
    (input template : String) (sink : List String) :
    Option (Except String Unit × List String) :=
  match pikchrTransform engine (parse input) with
  | none => none
  | some events =>
    let title := (extract_heading events).getD ""
    let content := pushHtml events
    match renderTemplate template title content with
    | .error e => some (.error e, sink)
    | .ok rendered => some (.ok (), sink ++ [rendered])

/-- A filesystem side effect of `file_output`. `create` is
`fs::File::create` (creates the file, truncating an existing one to
empty); `writeFile` appends rendered bytes to the named file;
`writeStdout` writes them to standard output. -/
inductive FsOp where
  | create (path : String)
  | writeFile (path : String) (data : String)
  | writeStdout (data : String)
  deriving DecidableEq, Repr

/-- `file_output` (src/main.rs lines 56-63): read the input file (an error
bubbles), open the sink — `File::create(path)` when `--output` was given,
stdout otherwise — and run `render_html` into it. Returns the `Result`
paired with the ordered trace of filesystem effects; `none` models the
transformer panic. `File::create` happens before `render_html` runs, hence
the `create` effect precedes any write in the trace. -/
def file_output (readFile : String → Except String String)
    (parse : String → List Event) (engine : Engine)
    (pushHtml : List Event → String)
    (renderTemplate : String → String → String → Except String String)
    (p : Params) : Option (Except String Unit × List FsOp) :=
  match readFile p.input with
  | .error e => some (.error e, [])
  | .ok input =>
    match p.output with
    | some path =>
      match render_html parse engine pushHtml renderTemplate input p.template [] with
      | none => none
      | some (res, chunks) =>
        some (res, FsOp.create path :: chunks.map (FsOp.writeFile path))
    | none =>
      match render_html parse engine pushHtml renderTemplate input p.template [] with
      | none => none
      | some (res, chunks) => some (res, chunks.map FsOp.writeStdout)

/-- Replay one filesystem effect on a disk state (path ↦ contents). -/
def applyOp (fs : String → Option String) : FsOp → (String → Option String)
  | .create path => fun q => if q = path then some "" else fs q
  | .writeFile path data =>
    fun q => if q = path then some (((fs path).getD "") ++ data) else fs q
  | .writeStdout _ => fs

/-- Replay a trace of filesystem effects on a disk state. -/
def applyOps (fs : String → Option String) (ops : List FsOp) : String → Option String :=
  ops.foldl applyOp fs

/-- An HTTP response: status code and body. -/
structure Response where
  status : Nat
  body : String
  deriving DecidableEq, Repr

/-- `not_found` (src/main.rs lines 67-71). -/
def notFound : Response := ⟨404, "File not found"⟩

/-- `bad_request` (src/main.rs lines 73-77). -/
def badRequest (err : String) : Response := ⟨400, err⟩

/-- The `document` closure (src/main.rs lines 80-96): read the input (404 on
failure), render into a fresh buffer (400 with the message on failure),
otherwise 200 with the buffer contents. `none` models the transformer
panic. -/
def document (readFile : String → Except String String)
    (parse : String → List Event) (engine : Engine)
    (pushHtml : List Event → String)
    (renderTemplate : String → String → String → Except String String)
    (p : Params) : Option Response :=
  match readFile p.input with
  | .error _ => some notFound
  | .ok input =>
    match render_html parse engine pushHtml renderTemplate input p.template [] with
    | none => none
    | some (.error e, _) => some (badRequest e)
    | some (.ok _, chunks) => some ⟨200, String.join chunks⟩

/-- The routing test of the `fallback` handler: the Rust match at
src/main.rs lines 102-106 invokes `document()` exactly when this holds. -/
def pathMatches (tail : String) : Option String → Bool
  | none => tail = ""
  | some out => tail = out

/-- The `fallback` handler (src/main.rs lines 99-107). The Rust match arms
are `("", None) => document()`, `(_, Some(out)) if tail == out =>
document()`, `_ => not_found()`; enumerated over the shape of `outputOpt`
they are exactly the two comparisons below. `docResp` is what the
`document` closure returns when invoked. -/
def fallback (tail : String) (outputOpt : Option String)
    (docResp : Option Response) : Option Response :=
  match outputOpt with
  | none => if tail = "" then docResp else some notFound
  | some out => if tail = out then docResp else some notFound

/-! ### Concrete fixtures used by the witnesses -/

/-- A diagram engine that always succeeds. -/
def engineOk : Engine := fun s => .ok ("<svg>" ++ s ++ "</svg>")

/-- A diagram engine that always fails. -/
def engineErr : Engine := fun _ => .error "pikchr syntax error"

/-- A well-formed sample stream with one pikchr block. -/
def wfSample : List Event :=
  [Event.start (Tag.codeBlock (CodeBlockKind.fenced "pikchr")),
   Event.text "box", Event.end_ (Tag.codeBlock (CodeBlockKind.fenced "pikchr")),
   Event.start (Tag.other "Paragraph"), Event.text "hi",
   Event.end_ (Tag.other "Paragraph")]

/-- The event stream the parser produces for the source `# *Hello*`: the
first inner event of the heading is `Start(Emphasis)`, not `Text`. -/
def emphHeadingEvents : List Event :=
  [Event.start (Tag.heading 1),
   Event.start (Tag.other "Emphasis"), Event.text "Hello",
   Event.end_ (Tag.other "Emphasis"),
   Event.end_ (Tag.heading 1)]

/-- An empty level-1 heading followed by a paragraph: the first `Text`
after the `Start(Heading(1))` lies outside the heading. -/
def emptyHeadingEvents : List Event :=
  [Event.start (Tag.heading 1), Event.end_ (Tag.heading 1),
   Event.start (Tag.other "Paragraph"), Event.text "body",
   Event.end_ (Tag.other "Paragraph")]

/-- A parser fixture that yields `wfSample` for any source. -/
def parseSample : String → List Event := fun _ => wfSample

/-- A parser fixture that yields no events. -/
def parseNil : String → List Event := fun _ => []

/-- A serializer fixture. -/
def pushHtmlConst : List Event → String := fun _ => "CONTENT"

/-- A template engine fixture that always fails. -/
def tmplFail : String → String → String → Except String String :=
  fun _ _ _ => .error "template error"

/-- A template engine fixture that always succeeds. -/
def tmplDoc : String → String → String → Except String String :=
  fun _ _ _ => .ok "the document"

/-- A filesystem fixture on which every read succeeds. -/
def readOk : String → Except String String := fun _ => .ok "src"

/-- A filesystem fixture on which every read fails. -/
def readFail : String → Except String String := fun _ => .error "missing"

/-- A diagram engine written differently from `engineOk` but with
pointwise-identical behavior. -/
def engineOk2 : Engine := fun s => .ok ("<svg>" ++ (s ++ "</svg>"))

/-- A `Params` fixture: file mode with `--output out.html`. -/
def pFix : Params := ⟨"in.md", some "out.html", "tpl"⟩

/-! ### Basic rewriting lemmas for the transformer -/

/-- Pass-through: an event that is not a pikchr fenced-block start is
emitted unchanged, and the rest of the stream is processed after it. -/
theorem pikchrTransform_cons_pass (engine : Engine) (e : Event) (rest : List Event)
    (he : isPikchrStart e = false) :
    pikchrTransform engine (e :: rest) = (pikchrTransform engine rest).map (e :: ·) := by
  rw [pikchrTransform.eq_def]
  simp [he]

/-- Collapse: a pikchr start followed by a `Text` event and one further
event (discarded without inspection) becomes the single replacement event. -/
theorem pikchrTransform_triple (engine : Engine) (body : String) (e3 : Event)
    (rest : List Event) :
    pikchrTransform engine
      (Event.start (Tag.codeBlock (CodeBlockKind.fenced "pikchr"))
        :: Event.text body :: e3 :: rest)
    = (pikchrTransform engine rest).map (pikchrReplacement engine body :: ·) := by
  simp [pikchrTransform, isPikchrStart]

/-- Well-formedness is preserved by dropping the head event. -/
theorem pikchrWF_tail {x : Event} {E : List Event} (h : pikchrWF (x :: E)) :
    pikchrWF E := by
  intro i hi hp
  have h1 := h (i + 1) (by simpa using Nat.succ_lt_succ hi)
  simp only [List.get_eq_getElem, List.getElem_cons_succ] at h1
  have h2 := h1 hp
  unfold expectsTextEnd at h2 ⊢
  simpa [List.getElem?_cons_succ] using h2

/-- A well-formed stream headed by a pikchr start has a `Text` and then an
`End` right behind the head. -/
theorem pikchrWF_head {E : List Event} (h : pikchrWF E) {e : Event}
    (he : E[0]? = some e) (hp : isPikchrStart e = true) :
    expectsTextEnd E 0 = true := by
  cases E with
  | nil => simp at he
  | cons a l =>
    simp at he
    exact h 0 (by simp) (by simp [he, hp])

/-- A pikchr start whose tail does not begin with a `Text` event followed by
at least one further event makes the transformer panic. -/
theorem pikchrTransform_stuck (engine : Engine) (e : Event) (rest : List Event)
    (hp : isPikchrStart e = true)
    (hshape : ∀ body head rest', rest = Event.text body :: head :: rest' → False) :
    pikchrTransform engine (e :: rest) = none := by
  rw [pikchrTransform.eq_def]
  simp only [hp, if_true]

/-- The only event satisfying `isPikchrStart` is the pikchr fenced start. -/
theorem eq_pikchrStart {e : Event} (hp : isPikchrStart e = true) :
    e = Event.start (Tag.codeBlock (CodeBlockKind.fenced "pikchr")) := by
  cases e with
  | start t =>
    cases t with
    | codeBlock k =>
      cases k with
      | fenced lang =>
        simp [isPikchrStart] at hp
        rw [hp]
      | indented => simp [isPikchrStart] at hp
    | heading l => simp [isPikchrStart] at hp
    | other n => simp [isPikchrStart] at hp
  | end_ t => simp [isPikchrStart] at hp
  | text s => simp [isPikchrStart] at hp
  | html s => simp [isPikchrStart] at hp
  | other n => simp [isPikchrStart] at hp

/-- On a well-formed stream the whole collection succeeds. -/
theorem pikchr_total (engine : Engine) (E : List Event) :
    pikchrWF E → ∃ T, pikchrTransform engine E = some T := by
  induction E using pikchrTransform.induct engine with
  | case1 => exact fun _ => ⟨[], rfl⟩
  | case2 e hp body head rest' ih =>
    intro h
    obtain ⟨T, hT⟩ := ih (pikchrWF_tail (pikchrWF_tail (pikchrWF_tail h)))
    rw [eq_pikchrStart hp]
    exact ⟨pikchrReplacement engine body :: T, by rw [pikchrTransform_triple, hT]; rfl⟩
  | case3 e rest hp hshape =>
    intro h
    exfalso
    have h0 := pikchrWF_head h (by simp) hp
    unfold expectsTextEnd at h0
    simp only [Bool.and_eq_true] at h0
    obtain ⟨h1, h2⟩ := h0
    cases rest with
    | nil => simp at h1
    | cons a l =>
      cases l with
      | nil => simp at h2
      | cons b l' =>
        simp only [List.getElem?_cons_succ, List.getElem?_cons_zero] at h1
        cases a with
        | text s => exact hshape s b l' rfl
        | start t => simp [isTextEvent] at h1
        | end_ t => simp [isTextEvent] at h1
        | html s => simp [isTextEvent] at h1
        | other n => simp [isTextEvent] at h1
  | case4 e rest hp ih =>
    intro h
    obtain ⟨T, hT⟩ := ih (pikchrWF_tail h)
    refine ⟨e :: T, ?_⟩
    rw [pikchrTransform_cons_pass engine e rest (by simpa using hp), hT]
    rfl

/-- On a well-formed stream one `next` call succeeds and leaves a
well-formed residual stream. -/
theorem pikchrNext_wf (engine : Engine) (E : List Event) (h : pikchrWF E) :
    ∃ r, pikchrNext engine E = some r ∧ pikchrWF r.2 := by
  cases E with
  | nil => exact ⟨(none, []), rfl, by intro i hi; simp at hi⟩
  | cons e rest =>
    by_cases hp : isPikchrStart e = true
    · have h0 := pikchrWF_head h (by simp) hp
      unfold expectsTextEnd at h0
      simp only [Bool.and_eq_true] at h0
      obtain ⟨h1, h2⟩ := h0
      cases rest with
      | nil => simp at h1
      | cons a l =>
        cases l with
        | nil => simp at h2
        | cons b l' =>
          simp only [List.getElem?_cons_succ, List.getElem?_cons_zero] at h1 h2
          cases a with
          | text sbody =>
            refine ⟨(some (pikchrReplacement engine sbody), l'), ?_, ?_⟩
            · simp [pikchrNext, hp]
            · exact pikchrWF_tail (pikchrWF_tail (pikchrWF_tail h))
          | start t => simp [isTextEvent] at h1
          | end_ t => simp [isTextEvent] at h1
          | html s => simp [isTextEvent] at h1
          | other n => simp [isTextEvent] at h1
    · have hp2 : isPikchrStart e = false := by simpa using hp
      exact ⟨(some e, rest), by simp [pikchrNext, hp2], pikchrWF_tail h⟩

/-! ### Lemmas about the heading extractor -/

/-- Once the flag is true it never resets: the loop returns the first
`Text` event of the remaining stream. -/
theorem extractHeadingLoop_true (E : List Event) :
    extractHeadingLoop true E = firstText E := by
  induction E with
  | nil => rfl
  | cons e rest ih =>
    cases e with
    | text s => rfl
    | start t => simpa [extractHeadingLoop, firstText] using ih
    | end_ t => simpa [extractHeadingLoop, firstText] using ih
    | html s => simpa [extractHeadingLoop, firstText] using ih
    | other n => simpa [extractHeadingLoop, firstText] using ih

/-- The extractor equals its closed form: the first `Text` event anywhere
after the first `Start(Heading(1))`. -/
theorem extract_heading_eq_titleSpec (E : List Event) :
    extract_heading E = titleSpec E := by
  rw [extract_heading]
  induction E with
  | nil => rfl
  | cons e rest ih =>
    cases e with
    | start t =>
      cases t with
      | heading level =>
        by_cases h1 : level = 1
        · simp [extractHeadingLoop, titleSpec, h1, extractHeadingLoop_true]
        · simp [extractHeadingLoop, titleSpec, h1, ih]
      | codeBlock k => simpa [extractHeadingLoop, titleSpec] using ih
      | other n => simpa [extractHeadingLoop, titleSpec] using ih
    | end_ t => simpa [extractHeadingLoop, titleSpec] using ih
    | text s => simpa [extractHeadingLoop, titleSpec] using ih
    | html s => simpa [extractHeadingLoop, titleSpec] using ih
    | other n => simpa [extractHeadingLoop, titleSpec] using ih

/-- `firstText` finds something exactly when the stream has a `Text` event. -/
theorem firstText_isSome (E : List Event) :
    (firstText E).isSome = E.any isTextEvent := by
  induction E with
  | nil => rfl
  | cons e rest ih =>
    cases e with
    | text s => simp [firstText, isTextEvent]
    | start t => simpa [firstText, isTextEvent] using ih
    | end_ t => simpa [firstText, isTextEvent] using ih
    | html s => simpa [firstText, isTextEvent] using ih
    | other n => simpa [firstText, isTextEvent] using ih

/-- `titleSpec` finds something exactly when some `Text` event follows the
first `Start(Heading(1))`. -/
theorem titleSpec_isSome (E : List Event) :
    (titleSpec E).isSome = hasH1ThenText E := by
  induction E with
  | nil => rfl
  | cons e rest ih =>
    cases e with
    | start t =>
      cases t with
      | heading level =>
        by_cases h1 : level = 1
        · simp [titleSpec, hasH1ThenText, h1, firstText_isSome]
        · simp [titleSpec, hasH1ThenText, h1, ih]
      | codeBlock k => simpa [titleSpec, hasH1ThenText] using ih
      | other n => simpa [titleSpec, hasH1ThenText] using ih
    | end_ t => simpa [titleSpec, hasH1ThenText] using ih
    | text s => simpa [titleSpec, hasH1ThenText] using ih
    | html s => simpa [titleSpec, hasH1ThenText] using ih
    | other n => simpa [titleSpec, hasH1ThenText] using ih

/-- `firstText` skips over a block of non-`Text` events. -/
theorem firstText_append_of_no_text (mid : List Event) (tail : List Event)
    (hmid : ∀ e ∈ mid, isTextEvent e = false) :
    firstText (mid ++ tail) = firstText tail := by
  induction mid with
  | nil => rfl
  | cons e rest ih =>
    have he := hmid e (.head rest)
    have ih2 := ih fun x hx => hmid x (.tail e hx)
    cases e with
    | text s => simp [isTextEvent] at he
    | start t => simpa [firstText] using ih2
    | end_ t => simpa [firstText] using ih2
    | html s => simpa [firstText] using ih2
    | other n => simpa [firstText] using ih2

/-- `titleSpec` skips over a block with no `Start(Heading(1))` event. -/
theorem titleSpec_append_of_no_h1 (pre : List Event) (tail : List Event)
    (hpre : ∀ e ∈ pre, e ≠ Event.start (Tag.heading 1)) :
    titleSpec (pre ++ tail) = titleSpec tail := by
  induction pre with
  | nil => rfl
  | cons e rest ih =>
    have he := hpre e (.head rest)
    have ih2 := ih fun x hx => hpre x (.tail e hx)
    cases e with
    | start t =>
      cases t with
      | heading level =>
        have hne : ¬level = 1 := fun h => he (by rw [h])
        simpa [titleSpec, hne] using ih2
      | codeBlock k => simpa [titleSpec] using ih2
      | other n => simpa [titleSpec] using ih2
    | end_ t => simpa [titleSpec] using ih2
    | text s => simpa [titleSpec] using ih2
    | html s => simpa [titleSpec] using ih2
    | other n => simpa [titleSpec] using ih2

/-! ### The claims -/

/-- C1: whenever the transformer meets the exact three-event subsequence
`Start(CodeBlock(Fenced("pikchr")))`, `Text(body)`, `End`, it emits exactly
one event in place of the three: `Html(svg)` if the engine succeeds on
`body`, `Text(message)` with the engine's error description if it fails;
an engine failure still yields a transformed stream (it is never
propagated as a pipeline error). -/
theorem pikchr_triple_replacement (engine : Engine) (body : String) (close : Tag)
    (rest T : List Event) (h : pikchrTransform engine rest = some T) :
    pikchrTransform engine
        (Event.start (Tag.codeBlock (CodeBlockKind.fenced "pikchr"))
          :: Event.text body :: Event.end_ close :: rest)
      = some (pikchrReplacement engine body :: T)
    ∧ ((∃ svg, engine body = Except.ok svg ∧ pikchrReplacement engine body = Event.html svg)
       ∨ (∃ msg, engine body = Except.error msg
            ∧ pikchrReplacement engine body = Event.text msg)) := by
  constructor
  · rw [pikchrTransform_triple, h]
    rfl
  · cases he : engine body with
    | ok svg => exact Or.inl ⟨svg, rfl, by simp [pikchrReplacement, he]⟩
    | error msg => exact Or.inr ⟨msg, rfl, by simp [pikchrReplacement, he]⟩

/-- Witness for C1, on an engine that always fails. -/
theorem pikchr_triple_replacement_witness :
    pikchrTransform engineErr [] = some []
    ∧ (pikchrTransform engineErr
          (Event.start (Tag.codeBlock (CodeBlockKind.fenced "pikchr"))
            :: Event.text "b"
            :: Event.end_ (Tag.codeBlock (CodeBlockKind.fenced "pikchr")) :: [])
        = some (pikchrReplacement engineErr "b" :: [])
       ∧ ((∃ svg, engineErr "b" = Except.ok svg
              ∧ pikchrReplacement engineErr "b" = Event.html svg)
          ∨ (∃ msg, engineErr "b" = Except.error msg
              ∧ pikchrReplacement engineErr "b" = Event.text msg))) :=
  ⟨rfl, pikchr_triple_replacement engineErr "b"
    (Tag.codeBlock (CodeBlockKind.fenced "pikchr")) [] [] rfl⟩

/-- C2 counterexample: for the event stream of `# *Hello*` — a level-1
heading whose first inner event is `Start(Emphasis)`, not `Text` — the
extractor returns `some "Hello"`, not nothing, refuting the claimed
iff-characterization. -/
theorem emph_heading_extracted :
    extract_heading emphHeadingEvents = some "Hello"
    ∧ h1WithTextFirstChild emphHeadingEvents = false := by decide

/-- C2 amended: the extractor returns a string iff some `Text` event occurs
anywhere after the first `Start(Heading(1))` — the first inner event of the
heading need not be `Text`. -/
theorem extract_heading_isSome_iff (E : List Event) :
    (extract_heading E).isSome = hasH1ThenText E := by
  rw [extract_heading_eq_titleSpec, titleSpec_isSome]

/-- C3: a successful transformer run decomposes its input into chunks:
every event that is not part of a matched pikchr triple is a plain chunk
emitted unchanged at the corresponding position, each matched triple
collapses three input events into one replacement event, the output is
never longer than the input, and the number of matched triples equals the
number of replacement events in the output. -/
theorem transform_decomposition (engine : Engine) (E T : List Event)
    (h : pikchrTransform engine E = some T) :
    ∃ cs : List Chunk,
      chunksValid cs = true
      ∧ chunksInput cs = E
      ∧ chunksOutput engine cs = T
      ∧ E.length = T.length + 2 * countTriples cs
      ∧ T.length ≤ E.length := by
  induction E using pikchrTransform.induct engine generalizing T with
  | case1 =>
    cases T with
    | cons a l => simp [pikchrTransform] at h
    | nil => exact ⟨[], rfl, rfl, rfl, by simp [countTriples], Nat.le_refl 0⟩
  | case2 e hp body head rest' ih =>
    have he := eq_pikchrStart hp
    subst he
    rw [pikchrTransform_triple, Option.map_eq_some'] at h
    obtain ⟨T2, hT2, hb⟩ := h
    subst hb
    obtain ⟨cs', hv, hi, ho, hl, hle⟩ := ih T2 hT2
    simp only [chunksInput] at hi
    simp only [chunksOutput] at ho
    refine ⟨Chunk.triple body head :: cs', ?_, ?_, ?_, ?_, ?_⟩
    · simpa [chunksValid] using hv
    · simp [chunksInput, Chunk.input, hi]
    · simp [chunksOutput, Chunk.output, ho]
    · simp only [List.length_cons, countTriples]
      omega
    · simp only [List.length_cons]
      omega
  | case3 e rest hp hshape =>
    rw [pikchrTransform_stuck engine e rest hp hshape] at h
    exact absurd h (by simp)
  | case4 e rest hp ih =>
    have hp2 : isPikchrStart e = false := by simpa using hp
    rw [pikchrTransform_cons_pass engine e rest hp2, Option.map_eq_some'] at h
    obtain ⟨T2, hT2, hb⟩ := h
    subst hb
    obtain ⟨cs', hv, hi, ho, hl, hle⟩ := ih T2 hT2
    simp only [chunksInput] at hi
    simp only [chunksOutput] at ho
    refine ⟨Chunk.plain e :: cs', ?_, ?_, ?_, ?_, ?_⟩
    · simpa [chunksValid, hp2] using hv
    · simp [chunksInput, Chunk.input, hi]
    · simp [chunksOutput, Chunk.output, ho]
    · simp only [List.length_cons, countTriples]
      omega
    · simp only [List.length_cons]
      omega

/-- Witness for C3, on a stream with one pikchr triple and a trailing
paragraph. -/
theorem transform_decomposition_witness :
    pikchrTransform engineOk wfSample
        = some [Event.html "<svg>box</svg>", Event.start (Tag.other "Paragraph"),
                Event.text "hi", Event.end_ (Tag.other "Paragraph")]
    ∧ ∃ cs : List Chunk,
        chunksValid cs = true
        ∧ chunksInput cs = wfSample
        ∧ chunksOutput engineOk cs
            = [Event.html "<svg>box</svg>", Event.start (Tag.other "Paragraph"),
               Event.text "hi", Event.end_ (Tag.other "Paragraph")]
        ∧ wfSample.length
            = [Event.html "<svg>box</svg>", Event.start (Tag.other "Paragraph"),
               Event.text "hi", Event.end_ (Tag.other "Paragraph")].length
              + 2 * countTriples cs
        ∧ [Event.html "<svg>box</svg>", Event.start (Tag.other "Paragraph"),
           Event.text "hi", Event.end_ (Tag.other "Paragraph")].length ≤ wfSample.length :=
  ⟨by decide,
   transform_decomposition engineOk wfSample
     [Event.html "<svg>box</svg>", Event.start (Tag.other "Paragraph"),
      Event.text "hi", Event.end_ (Tag.other "Paragraph")] (by decide)⟩

/-- C4: on a stream satisfying the parser contract (every pikchr start is
followed by exactly one `Text` and then an `End`), the transformer never
panics: one `next` call succeeds and leaves a well-formed residual stream,
and exhausting the iterator succeeds. -/
theorem transformer_total_on_wf (engine : Engine) (E : List Event) (h : pikchrWF E) :
    (∃ r, pikchrNext engine E = some r ∧ pikchrWF r.2)
    ∧ ∃ T, pikchrTransform engine E = some T :=
  ⟨pikchrNext_wf engine E h, pikchr_total engine E h⟩

/-- Witness for C4. -/
theorem transformer_total_on_wf_witness :
    pikchrWF wfSample
    ∧ ((∃ r, pikchrNext engineOk wfSample = some r ∧ pikchrWF r.2)
       ∧ ∃ T, pikchrTransform engineOk wfSample = some T) :=
  ⟨by decide, transformer_total_on_wf engineOk wfSample (by decide)⟩

/-- C5 counterexample: on the stream of an empty level-1 heading followed
by a paragraph, the code returns the paragraph text while the algorithm
claimed by the spec (reset `inside_h1` on every other `Start`) returns
nothing — the code does not implement the claimed scan. -/
theorem extractor_differs_from_spec_scan :
    extract_heading emptyHeadingEvents = some "body"
    ∧ spec_extract_heading emptyHeadingEvents = none := by decide

/-- C5 amended: the scan the code implements: while `in_h1` is false,
`Start(Heading(level))` sets the flag to `level == 1` and every other
event (including other `Start`s) leaves it false; once the flag is true no
event resets it and the next `Text(s)` returns `s`; the end of the stream
yields nothing. -/
theorem extractor_scan_transitions (k : Nat) (t : Tag) (e : Event) (s : String)
    (b : Bool) (rest : List Event)
    (ht : isHeadingTag t = false) (he : isTextEvent e = false) :
    extract_heading rest = extractHeadingLoop false rest
    ∧ extractHeadingLoop false (Event.start (Tag.heading k) :: rest)
        = extractHeadingLoop (decide (k = 1)) rest
    ∧ extractHeadingLoop false (Event.start t :: rest) = extractHeadingLoop false rest
    ∧ extractHeadingLoop true (Event.text s :: rest) = some s
    ∧ extractHeadingLoop true (e :: rest) = extractHeadingLoop true rest
    ∧ extractHeadingLoop b [] = none := by
  refine ⟨rfl, rfl, ?_, rfl, ?_, ?_⟩
  · cases t with
    | heading l => simp [isHeadingTag] at ht
    | codeBlock kk => rfl
    | other n => rfl
  · cases e with
    | text s2 => simp [isTextEvent] at he
    | start t2 => rfl
    | end_ t2 => rfl
    | html s2 => rfl
    | other n => rfl
  · cases b <;> rfl

/-- Witness for C5 (amended), at the transition that distinguishes the code
from the spec text: a `Start` of another tag while the flag is true. -/
theorem extractor_scan_transitions_witness :
    isHeadingTag (Tag.other "Paragraph") = false
    ∧ isTextEvent (Event.start (Tag.other "Paragraph")) = false
    ∧ (extract_heading [Event.text "y"] = extractHeadingLoop false [Event.text "y"]
       ∧ extractHeadingLoop false (Event.start (Tag.heading 2) :: [Event.text "y"])
           = extractHeadingLoop (decide ((2 : Nat) = 1)) [Event.text "y"]
       ∧ extractHeadingLoop false (Event.start (Tag.other "Paragraph") :: [Event.text "y"])
           = extractHeadingLoop false [Event.text "y"]
       ∧ extractHeadingLoop true (Event.text "x" :: [Event.text "y"]) = some "x"
       ∧ extractHeadingLoop true (Event.start (Tag.other "Paragraph") :: [Event.text "y"])
           = extractHeadingLoop true [Event.text "y"]
       ∧ extractHeadingLoop false [] = none) :=
  ⟨rfl, rfl,
   extractor_scan_transitions 2 (Tag.other "Paragraph")
     (Event.start (Tag.other "Paragraph")) "x" false [Event.text "y"] rfl rfl⟩

/-- C6: in file mode every surfaced error is the bubbled error of the input
read or of the template expansion — never a diagram-engine failure — and no
partial output exists: on failure no write effect occurs at all, on success
the sink receives exactly one write carrying the entire expanded document. -/
theorem errors_bubble_no_partial_output
    (readFile : String → Except String String) (parse : String → List Event)
    (engine : Engine) (pushHtml : List Event → String)
    (renderTemplate : String → String → String → Except String String)
    (p : Params) (res : Except String Unit) (ops : List FsOp)
    (h : file_output readFile parse engine pushHtml renderTemplate p = some (res, ops)) :
    (∀ e, res = Except.error e →
       (∀ path data, FsOp.writeFile path data ∉ ops) ∧ (∀ data, FsOp.writeStdout data ∉ ops))
    ∧ (res = Except.ok () → ∃ input events doc,
         readFile p.input = Except.ok input
         ∧ pikchrTransform engine (parse input) = some events
         ∧ renderTemplate p.template ((extract_heading events).getD "") (pushHtml events)
             = Except.ok doc
         ∧ ((p.output = none ∧ ops = [FsOp.writeStdout doc])
            ∨ ∃ name, p.output = some name
                ∧ ops = [FsOp.create name, FsOp.writeFile name doc]))
    ∧ (∀ e, res = Except.error e →
         readFile p.input = Except.error e
         ∨ ∃ input events, readFile p.input = Except.ok input
             ∧ pikchrTransform engine (parse input) = some events
             ∧ renderTemplate p.template ((extract_heading events).getD "") (pushHtml events)
                 = Except.error e) := by
  cases hread : readFile p.input with
  | error e0 =>
    simp only [file_output, hread] at h
    simp only [Option.some.injEq, Prod.mk.injEq] at h
    obtain ⟨rfl, rfl⟩ := h
    refine ⟨?_, ?_, ?_⟩
    · intro e _
      exact ⟨fun path data => List.not_mem_nil _, fun data => List.not_mem_nil _⟩
    · intro hok
      simp at hok
    · intro e he
      injection he with h1
      subst h1
      exact Or.inl rfl
  | ok input =>
    cases hout : p.output with
    | some path =>
      cases htr : pikchrTransform engine (parse input) with
      | none =>
        simp only [file_output, hread, hout, render_html, htr] at h
        exact Option.noConfusion h
      | some events =>
        cases htm : renderTemplate p.template ((extract_heading events).getD "")
            (pushHtml events) with
        | error e1 =>
          simp only [file_output, hread, hout, render_html, htr, htm] at h
          simp only [List.map_nil, Option.some.injEq, Prod.mk.injEq] at h
          obtain ⟨rfl, rfl⟩ := h
          refine ⟨?_, ?_, ?_⟩
          · intro e _
            constructor
            · intro path2 data
              simp
            · intro data
              simp
          · intro hok
            simp at hok
          · intro e he
            injection he with h1
            subst h1
            exact Or.inr ⟨input, events, rfl, htr, htm⟩
        | ok rendered =>
          simp only [file_output, hread, hout, render_html, htr, htm] at h
          simp only [List.map_cons, List.map_nil, Option.some.injEq, Prod.mk.injEq] at h
          obtain ⟨rfl, rfl⟩ := h
          refine ⟨?_, ?_, ?_⟩
          · intro e he
            simp at he
          · intro _
            exact ⟨input, events, rendered, rfl, htr, htm, Or.inr ⟨path, rfl, rfl⟩⟩
          · intro e he
            simp at he
    | none =>
      cases htr : pikchrTransform engine (parse input) with
      | none =>
        simp only [file_output, hread, hout, render_html, htr] at h
        exact Option.noConfusion h
      | some events =>
        cases htm : renderTemplate p.template ((extract_heading events).getD "")
            (pushHtml events) with
        | error e1 =>
          simp only [file_output, hread, hout, render_html, htr, htm] at h
          simp only [List.map_nil, Option.some.injEq, Prod.mk.injEq] at h
          obtain ⟨rfl, rfl⟩ := h
          refine ⟨?_, ?_, ?_⟩
          · intro e _
            exact ⟨fun path data => List.not_mem_nil _, fun data => List.not_mem_nil _⟩
          · intro hok
            simp at hok
          · intro e he
            injection he with h1
            subst h1
            exact Or.inr ⟨input, events, rfl, htr, htm⟩
        | ok rendered =>
          simp only [file_output, hread, hout, render_html, htr, htm] at h
          simp only [List.map_cons, List.map_nil, Option.some.injEq, Prod.mk.injEq] at h
          obtain ⟨rfl, rfl⟩ := h
          refine ⟨?_, ?_, ?_⟩
          · intro e he
            simp at he
          · intro _
            exact ⟨input, events, rendered, rfl, htr, htm, Or.inl ⟨rfl, rfl⟩⟩
          · intro e he
            simp at he

/-- Witness for C6, on a run whose template expansion fails. -/
theorem errors_bubble_no_partial_output_witness :
    file_output readOk parseSample engineOk pushHtmlConst tmplFail pFix
      = some (Except.error "template error", [FsOp.create "out.html"])
    ∧ ((∀ e, (Except.error "template error" : Except String Unit) = Except.error e →
          (∀ path data, FsOp.writeFile path data ∉ [FsOp.create "out.html"])
          ∧ (∀ data, FsOp.writeStdout data ∉ [FsOp.create "out.html"]))
       ∧ ((Except.error "template error" : Except String Unit) = Except.ok () →
            ∃ input events doc,
              readOk pFix.input = Except.ok input
              ∧ pikchrTransform engineOk (parseSample input) = some events
              ∧ tmplFail pFix.template ((extract_heading events).getD "")
                  (pushHtmlConst events) = Except.ok doc
              ∧ ((pFix.output = none
                    ∧ [FsOp.create "out.html"] = [FsOp.writeStdout doc])
                 ∨ ∃ name, pFix.output = some name
                     ∧ [FsOp.create "out.html"]
                         = [FsOp.create name, FsOp.writeFile name doc]))
       ∧ (∀ e, (Except.error "template error" : Except String Unit) = Except.error e →
            readOk pFix.input = Except.error e
            ∨ ∃ input events, readOk pFix.input = Except.ok input
                ∧ pikchrTransform engineOk (parseSample input) = some events
                ∧ tmplFail pFix.template ((extract_heading events).getD "")
                    (pushHtmlConst events) = Except.error e)) :=
  ⟨rfl,
   errors_bubble_no_partial_output readOk parseSample engineOk pushHtmlConst tmplFail
     pFix (Except.error "template error") [FsOp.create "out.html"] rfl⟩

/-- C7 counterexample: a request whose path satisfies the routing condition
(empty path, no `--output`) on a server whose input file is unreadable gets
404 `"File not found"`, even though the template engine would have rendered
a document — so the rendered document is not returned although the claimed
iff-condition holds, and a failed render (the read step of §4.4) surfaces
as 404, not 400. -/
theorem matching_path_unreadable_input_404 :
    pathMatches "" none = true
    ∧ fallback "" none
        (document readFail parseNil engineOk pushHtmlConst tmplDoc ⟨"in.md", none, "tpl"⟩)
      = some notFound
    ∧ notFound.status = 404
    ∧ (∀ t c, tmplDoc t "" c = Except.ok "the document") :=
  ⟨rfl, rfl, rfl, fun _ _ => rfl⟩

/-- C7 amended: the fallback invokes the document handler iff the request
path is empty and `--output` was not given, or the path equals the
`--output` string exactly; every other request gets 404 with body
`"File not found"`. The handler returns 404 `"File not found"` when the
input file is unreadable, 400 with the error message when rendering fails,
and 200 with the rendered document on success. -/
theorem fallback_routing
    (readFile : String → Except String String) (parse : String → List Event)
    (engine : Engine) (pushHtml : List Event → String)
    (renderTemplate : String → String → String → Except String String)
    (p : Params) (tail : String) :
    (pathMatches tail p.output = false →
       fallback tail p.output (document readFile parse engine pushHtml renderTemplate p)
         = some notFound)
    ∧ (pathMatches tail p.output = true →
       fallback tail p.output (document readFile parse engine pushHtml renderTemplate p)
         = document readFile parse engine pushHtml renderTemplate p)
    ∧ (∀ err, readFile p.input = Except.error err →
         document readFile parse engine pushHtml renderTemplate p = some notFound)
    ∧ (∀ input err sink, readFile p.input = Except.ok input →
         render_html parse engine pushHtml renderTemplate input p.template []
           = some (Except.error err, sink) →
         document readFile parse engine pushHtml renderTemplate p = some (badRequest err))
    ∧ (∀ input chunks, readFile p.input = Except.ok input →
         render_html parse engine pushHtml renderTemplate input p.template []
           = some (Except.ok (), chunks) →
         document readFile parse engine pushHtml renderTemplate p
           = some ⟨200, String.join chunks⟩) := by
  refine ⟨?_, ?_, ?_, ?_, ?_⟩
  · intro hpm
    cases ho : p.output with
    | none =>
      rw [ho] at hpm
      simp only [pathMatches, decide_eq_false_iff_not] at hpm
      simp [fallback, hpm]
    | some out =>
      rw [ho] at hpm
      simp only [pathMatches, decide_eq_false_iff_not] at hpm
      simp [fallback, hpm]
  · intro hpm
    cases ho : p.output with
    | none =>
      rw [ho] at hpm
      simp only [pathMatches, decide_eq_true_eq] at hpm
      simp [fallback, hpm]
    | some out =>
      rw [ho] at hpm
      simp only [pathMatches, decide_eq_true_eq] at hpm
      simp [fallback, hpm]
  · intro err hread
    simp [document, hread]
  · intro input err sink hread hr
    simp [document, hread, hr]
  · intro input chunks hread hr
    simp [document, hread, hr]

/-- Witness for C7 (amended): each routing and status case exercised at a
concrete request. -/
theorem fallback_routing_witness :
    fallback "x" pFix.output
        (document readFail parseNil engineOk pushHtmlConst tmplDoc pFix)
      = some notFound
    ∧ fallback "out.html" pFix.output
        (document readFail parseNil engineOk pushHtmlConst tmplDoc pFix)
      = document readFail parseNil engineOk pushHtmlConst tmplDoc pFix
    ∧ document readFail parseNil engineOk pushHtmlConst tmplDoc pFix = some notFound
    ∧ document readOk parseSample engineOk pushHtmlConst tmplFail pFix
        = some (badRequest "template error")
    ∧ document readOk parseSample engineOk pushHtmlConst tmplDoc pFix
        = some ⟨200, String.join ["the document"]⟩ :=
  ⟨(fallback_routing readFail parseNil engineOk pushHtmlConst tmplDoc pFix "x").1 rfl,
   (fallback_routing readFail parseNil engineOk pushHtmlConst tmplDoc pFix "out.html").2.1 rfl,
   (fallback_routing readFail parseNil engineOk pushHtmlConst tmplDoc pFix "").2.2.1
     "missing" rfl,
   (fallback_routing readOk parseSample engineOk pushHtmlConst tmplFail pFix "").2.2.2.1
     "src" "template error" [] rfl rfl,
   (fallback_routing readOk parseSample engineOk pushHtmlConst tmplDoc pFix "").2.2.2.2
     "src" ["the document"] rfl rfl⟩

/-- C8: rendering is deterministic: with the same source string, the same
template string and pointwise-identical diagram-engine behavior, two
renders produce identical results. -/
theorem render_deterministic (parse : String → List Event)
    (pushHtml : List Event → String)
    (renderTemplate : String → String → String → Except String String)
    (engine1 engine2 : Engine) (input template : String) (sink : List String)
    (h : ∀ s, engine1 s = engine2 s) :
    render_html parse engine1 pushHtml renderTemplate input template sink
      = render_html parse engine2 pushHtml renderTemplate input template sink := by
  have he : engine1 = engine2 := funext h
  rw [he]

/-- Witness for C8, on two syntactically different engines with identical
behavior. -/
theorem render_deterministic_witness :
    (∀ s, engineOk s = engineOk2 s)
    ∧ render_html parseSample engineOk pushHtmlConst tmplDoc "src" "tpl" []
        = render_html parseSample engineOk2 pushHtmlConst tmplDoc "src" "tpl" [] :=
  ⟨fun s => by simp [engineOk, engineOk2, String.append_assoc],
   render_deterministic parseSample pushHtmlConst tmplDoc engineOk engineOk2 "src" "tpl" []
     (fun s => by simp [engineOk, engineOk2, String.append_assoc])⟩

/-- C9: once the extractor sees `Start(Heading(1))` its flag is never reset
by any later event: it returns the first `Text` occurring anywhere after
the first `Start(Heading(1))`, across intervening `Start`s of other tags
and the heading's own `End`. -/
theorem first_text_after_first_h1 (pre mid rest : List Event) (s : String)
    (hpre : ∀ e ∈ pre, e ≠ Event.start (Tag.heading 1))
    (hmid : ∀ e ∈ mid, isTextEvent e = false) :
    extract_heading
        (pre ++ Event.start (Tag.heading 1) :: (mid ++ Event.text s :: rest))
      = some s := by
  rw [extract_heading_eq_titleSpec, titleSpec_append_of_no_h1 _ _ hpre]
  show titleSpec (Event.start (Tag.heading 1) :: (mid ++ Event.text s :: rest)) = some s
  simp only [titleSpec, if_pos rfl]
  rw [firstText_append_of_no_text _ _ hmid]
  simp [firstText]

/-- Witness for C9: an empty level-1 heading, its `End`, and a paragraph
`Start` intervene before the returned text. -/
theorem first_text_after_first_h1_witness :
    (∀ e ∈ [Event.text "x"], e ≠ Event.start (Tag.heading 1))
    ∧ (∀ e ∈ [Event.end_ (Tag.heading 1), Event.start (Tag.other "Paragraph")],
         isTextEvent e = false)
    ∧ extract_heading
          ([Event.text "x"] ++ Event.start (Tag.heading 1)
            :: ([Event.end_ (Tag.heading 1), Event.start (Tag.other "Paragraph")]
                ++ Event.text "body" :: []))
        = some "body" :=
  ⟨by decide, by decide,
   first_text_after_first_h1 [Event.text "x"]
     [Event.end_ (Tag.heading 1), Event.start (Tag.other "Paragraph")] [] "body"
     (by decide) (by decide)⟩

/-- C10: with `--output NAME` the output file is created — truncating any
existing contents — before rendering runs, so a render that then fails
leaves `NAME` on disk as an empty file with no rendered bytes written. -/
theorem output_file_truncated_before_render
    (readFile : String → Except String String) (parse : String → List Event)
    (engine : Engine) (pushHtml : List Event → String)
    (renderTemplate : String → String → String → Except String String)
    (p : Params) (name input e : String)
    (hout : p.output = some name)
    (hread : readFile p.input = Except.ok input)
    (hfail : render_html parse engine pushHtml renderTemplate input p.template []
      = some (Except.error e, [])) :
    file_output readFile parse engine pushHtml renderTemplate p
      = some (Except.error e, [FsOp.create name])
    ∧ ∀ fs0 : String → Option String, applyOps fs0 [FsOp.create name] name = some "" := by
  constructor
  · simp [file_output, hread, hout, hfail]
  · intro fs0
    simp [applyOps, applyOp]

/-- Witness for C10, on a run whose template expansion fails. -/
theorem output_file_truncated_before_render_witness :
    pFix.output = some "out.html"
    ∧ readOk pFix.input = Except.ok "src"
    ∧ render_html parseSample engineOk pushHtmlConst tmplFail "src" pFix.template []
        = some (Except.error "template error", [])
    ∧ (file_output readOk parseSample engineOk pushHtmlConst tmplFail pFix
        = some (Except.error "template error", [FsOp.create "out.html"])
       ∧ ∀ fs0 : String → Option String,
           applyOps fs0 [FsOp.create "out.html"] "out.html" = some "") :=
  ⟨rfl, rfl, rfl,
   output_file_truncated_before_render readOk parseSample engineOk pushHtmlConst tmplFail
     pFix "out.html" "src" "template error" rfl rfl rfl⟩

end Notebook
